/-
Verification of the photon-ALP conversion engine (src/conversion.py).

The development shallowly embeds the numerical core of the repository:

* class `PhotALPs` (intergalactic medium, absorption-inclusive variant):
  the basis matrices built by `SetT1n`/`SetT2n`/`SetT3n`, the per-domain
  resolver `SetDomainN` with its optical-depth fallback and complex
  discriminant, and the transfer matrix assembled by `SetUn`;
* class `PhotALPs_ICM` (non-absorptive variant): the basis matrices of
  `__setT1n`/`__setT2n`/`__setT3n`, the eigenvalues of `__setEW` derived
  from the external Delta provider, and the unitary per-domain transfer
  matrix of `__setUn`;
* class `PhotALPs_GMF`: the discrete transfer-matrix propagator `Pag_TM`
  (sample grid, per-sample field angle, cumulative matrix product, channel
  probabilities), the warning behaviour of `integrate_los`, and the
  polarization-weight guard of `Pag`.

Floating-point numbers are modelled by ℝ, complex numbers by ℂ, and the
external collaborators (optical depth table, Delta provider, galactic
magnetic field model, coordinate transform) are passed in as explicit
function parameters, mirroring the narrow interfaces through which the
source consumes them.
-/
import Mathlib

open Matrix

/-- The 3x3 complex matrices in which all transfer operators of the source
live (numpy arrays of dtype `np.complex`). -/
abbrev Mat3 := Matrix (Fin 3) (Fin 3) ℂ

/-- Principal complex square root, as computed by `np.sqrt` on a complex
argument (used at src/conversion.py line 270 on `1 - 4*dn**2 + 0j`). -/
noncomputable def csqrt (z : ℂ) : ℂ := z ^ ((1 : ℂ) / 2)

/-- Basis matrix `T1` of the absorption-inclusive class, from
`PhotALPs.SetT1n` (src/conversion.py lines 139-157).  Entries never
assigned by the method keep their zero initialisation. -/
noncomputable def T1igm (ψ : ℝ) : Mat3 :=
  let s : ℂ := (Real.sin ψ : ℝ)
  let c : ℂ := (Real.cos ψ : ℝ)
  !![c * c, -1 * s * c, 0;
     -1 * s * c, s * s, 0;
     0, 0, 0]

/-- Basis matrix `T2` of the absorption-inclusive class, from
`PhotALPs.SetT2n` (src/conversion.py lines 159-188). -/
noncomputable def T2igm (ψ : ℝ) (dn : ℝ) (Dn : ℂ) : Mat3 :=
  let s : ℂ := (Real.sin ψ : ℝ)
  let c : ℂ := (Real.cos ψ : ℝ)
  let d : ℂ := (dn : ℝ)
  !![0.5 * (1 + Dn) / Dn * s * s, 0.5 * (1 + Dn) / Dn * s * c, -Complex.I * d / Dn * s;
     0.5 * (1 + Dn) / Dn * s * c, 0.5 * (1 + Dn) / Dn * c * c, -Complex.I * d / Dn * c;
     -Complex.I * d / Dn * s, -Complex.I * d / Dn * c, 0.5 * (-1 + Dn) / Dn]

/-- Basis matrix `T3` of the absorption-inclusive class, from
`PhotALPs.SetT3n` (src/conversion.py lines 190-219). -/
noncomputable def T3igm (ψ : ℝ) (dn : ℝ) (Dn : ℂ) : Mat3 :=
  let s : ℂ := (Real.sin ψ : ℝ)
  let c : ℂ := (Real.cos ψ : ℝ)
  let d : ℂ := (dn : ℝ)
  !![0.5 * (-1 + Dn) / Dn * s * s, 0.5 * (-1 + Dn) / Dn * s * c, Complex.I * d / Dn * s;
     0.5 * (-1 + Dn) / Dn * s * c, 0.5 * (-1 + Dn) / Dn * c * c, Complex.I * d / Dn * c;
     Complex.I * d / Dn * s, Complex.I * d / Dn * c, 0.5 * (1 + Dn) / Dn]

/-- Basis matrix `T1` of the non-absorptive class, from
`PhotALPs_ICM.__setT1n` (src/conversion.py lines 336-343). -/
noncomputable def T1icm (ψ : ℝ) : Mat3 :=
  let c : ℂ := (Real.cos ψ : ℝ)
  let s : ℂ := (Real.sin ψ : ℝ)
  !![c * c, -1 * c * s, 0;
     -1 * c * s, s * s, 0;
     0, 0, 0]

/-- Basis matrix `T2` of the non-absorptive class, from
`PhotALPs_ICM.__setT2n` (src/conversion.py lines 345-361). -/
noncomputable def T2icm (ψ alpha : ℝ) : Mat3 :=
  let c : ℂ := (Real.cos ψ : ℝ)
  let s : ℂ := (Real.sin ψ : ℝ)
  let ca : ℂ := (Real.cos alpha : ℝ)
  let sa : ℂ := (Real.sin alpha : ℝ)
  !![s * s * sa * sa, s * c * sa * sa, -1 * s * sa * ca;
     s * c * sa * sa, c * c * sa * sa, -1 * c * ca * sa;
     -1 * s * sa * ca, -1 * c * ca * sa, ca * ca]

/-- Basis matrix `T3` of the non-absorptive class, from
`PhotALPs_ICM.__setT3n` (src/conversion.py lines 363-379). -/
noncomputable def T3icm (ψ alpha : ℝ) : Mat3 :=
  let c : ℂ := (Real.cos ψ : ℝ)
  let s : ℂ := (Real.sin ψ : ℝ)
  let ca : ℂ := (Real.cos alpha : ℝ)
  let sa : ℂ := (Real.sin alpha : ℝ)
  !![s * s * ca * ca, s * c * ca * ca, s * sa * ca;
     s * c * ca * ca, c * c * ca * ca, c * sa * ca;
     s * sa * ca, c * sa * ca, sa * sa]

/-- Per-domain transfer matrix of the non-absorptive class, from
`PhotALPs_ICM.__setUn` (src/conversion.py lines 381-386):
`U_n = exp(i*EW1*L)*T1 + exp(i*EW2*L)*T2 + exp(i*EW3*L)*T3`. -/
noncomputable def UnICM (ψ alpha e1 e2 e3 L : ℝ) : Mat3 :=
  Complex.exp (Complex.I * (e1 : ℂ) * (L : ℂ)) • T1icm ψ +
    Complex.exp (Complex.I * (e2 : ℂ) * (L : ℂ)) • T2icm ψ alpha +
    Complex.exp (Complex.I * (e3 : ℂ) * (L : ℂ)) • T3icm ψ alpha

/-- Outer product of two real 3-vectors, viewed as a complex matrix.  The
basis matrices of the non-absorptive class are of this shape (rank-1
projectors onto the eigenvectors of the mixing matrix). -/
noncomputable def outerR (v w : Fin 3 → ℝ) : Mat3 :=
  Matrix.of fun i j => ((v i * w j : ℝ) : ℂ)

/-- Euclidean inner product of two real 3-vectors. -/
noncomputable def rdot (v w : Fin 3 → ℝ) : ℝ :=
  v 0 * w 0 + v 1 * w 1 + v 2 * w 2

/-- Eigenvector carried by `T1` of the non-absorptive class. -/
noncomputable def vecT1 (ψ : ℝ) : Fin 3 → ℝ := ![Real.cos ψ, -Real.sin ψ, 0]

/-- Eigenvector carried by `T2` of the non-absorptive class. -/
noncomputable def vecT2 (ψ alpha : ℝ) : Fin 3 → ℝ :=
  ![Real.sin ψ * Real.sin alpha, Real.cos ψ * Real.sin alpha, -Real.cos alpha]

/-- Eigenvector carried by `T3` of the non-absorptive class. -/
noncomputable def vecT3 (ψ alpha : ℝ) : Fin 3 → ℝ :=
  ![Real.sin ψ * Real.cos alpha, Real.cos ψ * Real.cos alpha, Real.sin alpha]

lemma outerR_mul_outerR (u v w x : Fin 3 → ℝ) :
    outerR u v * outerR w x = ((rdot v w : ℝ) : ℂ) • outerR u x := by
  ext i j
  simp only [outerR, rdot, Matrix.mul_apply, Matrix.smul_apply, Matrix.of_apply,
    Fin.sum_univ_three, smul_eq_mul]
  push_cast
  ring

lemma outerR_conjTranspose (v w : Fin 3 → ℝ) : (outerR v w)ᴴ = outerR w v := by
  ext i j
  simp only [outerR, Matrix.conjTranspose_apply, Matrix.of_apply, Complex.star_def,
    Complex.conj_ofReal]
  push_cast
  ring

lemma T1icm_outer (ψ : ℝ) : T1icm ψ = outerR (vecT1 ψ) (vecT1 ψ) := by
  ext i j
  fin_cases i <;> fin_cases j <;>
    simp [T1icm, outerR, vecT1, Matrix.cons_val_zero, Matrix.cons_val_one,
      Matrix.head_cons, Matrix.cons_val_two, Matrix.tail_cons, Matrix.vecHead,
      Matrix.vecTail] <;> push_cast <;> ring

lemma T2icm_outer (ψ alpha : ℝ) : T2icm ψ alpha = outerR (vecT2 ψ alpha) (vecT2 ψ alpha) := by
  ext i j
  fin_cases i <;> fin_cases j <;>
    simp [T2icm, outerR, vecT2, Matrix.cons_val_zero, Matrix.cons_val_one,
      Matrix.head_cons, Matrix.cons_val_two, Matrix.tail_cons, Matrix.vecHead,
      Matrix.vecTail] <;> push_cast <;> ring

lemma T3icm_outer (ψ alpha : ℝ) : T3icm ψ alpha = outerR (vecT3 ψ alpha) (vecT3 ψ alpha) := by
  ext i j
  fin_cases i <;> fin_cases j <;>
    simp [T3icm, outerR, vecT3, Matrix.cons_val_zero, Matrix.cons_val_one,
      Matrix.head_cons, Matrix.cons_val_two, Matrix.tail_cons, Matrix.vecHead,
      Matrix.vecTail] <;> push_cast <;> ring

lemma rdot_vecT1_vecT1 (ψ : ℝ) : rdot (vecT1 ψ) (vecT1 ψ) = 1 := by
  simp only [rdot, vecT1, Matrix.cons_val_zero, Matrix.cons_val_one, Matrix.head_cons,
    Matrix.cons_val_two, Matrix.tail_cons]
  linear_combination Real.sin_sq_add_cos_sq ψ

lemma rdot_vecT2_vecT2 (ψ alpha : ℝ) : rdot (vecT2 ψ alpha) (vecT2 ψ alpha) = 1 := by
  simp only [rdot, vecT2, Matrix.cons_val_zero, Matrix.cons_val_one, Matrix.head_cons,
    Matrix.cons_val_two, Matrix.tail_cons]
  linear_combination Real.sin alpha * Real.sin alpha * Real.sin_sq_add_cos_sq ψ +
    Real.sin_sq_add_cos_sq alpha

lemma rdot_vecT3_vecT3 (ψ alpha : ℝ) : rdot (vecT3 ψ alpha) (vecT3 ψ alpha) = 1 := by
  simp only [rdot, vecT3, Matrix.cons_val_zero, Matrix.cons_val_one, Matrix.head_cons,
    Matrix.cons_val_two, Matrix.tail_cons]
  linear_combination Real.cos alpha * Real.cos alpha * Real.sin_sq_add_cos_sq ψ +
    Real.sin_sq_add_cos_sq alpha

lemma rdot_vecT1_vecT2 (ψ alpha : ℝ) : rdot (vecT1 ψ) (vecT2 ψ alpha) = 0 := by
  simp only [rdot, vecT1, vecT2, Matrix.cons_val_zero, Matrix.cons_val_one, Matrix.head_cons,
    Matrix.cons_val_two, Matrix.tail_cons]
  ring

lemma rdot_vecT2_vecT1 (ψ alpha : ℝ) : rdot (vecT2 ψ alpha) (vecT1 ψ) = 0 := by
  simp only [rdot, vecT1, vecT2, Matrix.cons_val_zero, Matrix.cons_val_one, Matrix.head_cons,
    Matrix.cons_val_two, Matrix.tail_cons]
  ring

lemma rdot_vecT1_vecT3 (ψ alpha : ℝ) : rdot (vecT1 ψ) (vecT3 ψ alpha) = 0 := by
  simp only [rdot, vecT1, vecT3, Matrix.cons_val_zero, Matrix.cons_val_one, Matrix.head_cons,
    Matrix.cons_val_two, Matrix.tail_cons]
  ring

lemma rdot_vecT3_vecT1 (ψ alpha : ℝ) : rdot (vecT3 ψ alpha) (vecT1 ψ) = 0 := by
  simp only [rdot, vecT1, vecT3, Matrix.cons_val_zero, Matrix.cons_val_one, Matrix.head_cons,
    Matrix.cons_val_two, Matrix.tail_cons]
  ring

lemma rdot_vecT2_vecT3 (ψ alpha : ℝ) : rdot (vecT2 ψ alpha) (vecT3 ψ alpha) = 0 := by
  simp only [rdot, vecT2, vecT3, Matrix.cons_val_zero, Matrix.cons_val_one, Matrix.head_cons,
    Matrix.cons_val_two, Matrix.tail_cons]
  linear_combination Real.sin alpha * Real.cos alpha * Real.sin_sq_add_cos_sq ψ

lemma rdot_vecT3_vecT2 (ψ alpha : ℝ) : rdot (vecT3 ψ alpha) (vecT2 ψ alpha) = 0 := by
  simp only [rdot, vecT2, vecT3, Matrix.cons_val_zero, Matrix.cons_val_one, Matrix.head_cons,
    Matrix.cons_val_two, Matrix.tail_cons]
  linear_combination Real.sin alpha * Real.cos alpha * Real.sin_sq_add_cos_sq ψ

lemma Ticm_sum (ψ alpha : ℝ) : T1icm ψ + T2icm ψ alpha + T3icm ψ alpha = 1 := by
  have hp := Complex.sin_sq_add_cos_sq (ψ : ℂ)
  have ha := Complex.sin_sq_add_cos_sq (alpha : ℂ)
  ext i j
  fin_cases i <;> fin_cases j <;>
    simp [T1icm, T2icm, T3icm, Matrix.one_apply]
  · linear_combination Complex.sin (ψ : ℂ) * Complex.sin (ψ : ℂ) * ha + hp
  · linear_combination Complex.sin (ψ : ℂ) * Complex.cos (ψ : ℂ) * ha
  · linear_combination Complex.sin (ψ : ℂ) * Complex.cos (ψ : ℂ) * ha
  · linear_combination Complex.cos (ψ : ℂ) * Complex.cos (ψ : ℂ) * ha + hp
  · ring
  · ring
  · linear_combination ha

lemma exp_unit (e L : ℝ) :
    Complex.exp (Complex.I * (e : ℂ) * (L : ℂ)) *
      star (Complex.exp (Complex.I * (e : ℂ) * (L : ℂ))) = 1 := by
  have hs : star (Complex.I * (e : ℂ) * (L : ℂ)) = -(Complex.I * (e : ℂ) * (L : ℂ)) := by
    simp [Complex.star_def, Complex.conj_I, Complex.conj_ofReal]
  rw [Complex.star_def, ← Complex.exp_conj]
  rw [show ((starRingEnd ℂ) (Complex.I * (e : ℂ) * (L : ℂ))) =
    -(Complex.I * (e : ℂ) * (L : ℂ)) from hs]
  rw [← Complex.exp_add, add_neg_cancel, Complex.exp_zero]

lemma smul_outer_mul_smul_outer (a b : ℂ) (v w : Fin 3 → ℝ) :
    (a • outerR v v) * (b • outerR w w) = (a * b * ((rdot v w : ℝ) : ℂ)) • outerR v w := by
  rw [Matrix.smul_mul, Matrix.mul_smul, outerR_mul_outerR, smul_smul, smul_smul, mul_assoc]

lemma UnICM_mul_conjTranspose (ψ alpha e1 e2 e3 L : ℝ) :
    UnICM ψ alpha e1 e2 e3 L * (UnICM ψ alpha e1 e2 e3 L)ᴴ = 1 := by
  rw [UnICM, T1icm_outer, T2icm_outer, T3icm_outer]
  rw [Matrix.conjTranspose_add, Matrix.conjTranspose_add, Matrix.conjTranspose_smul,
    Matrix.conjTranspose_smul, Matrix.conjTranspose_smul, outerR_conjTranspose,
    outerR_conjTranspose, outerR_conjTranspose]
  simp only [add_mul, mul_add, smul_outer_mul_smul_outer]
  simp only [rdot_vecT1_vecT1, rdot_vecT2_vecT2, rdot_vecT3_vecT3, rdot_vecT1_vecT2,
    rdot_vecT2_vecT1, rdot_vecT1_vecT3, rdot_vecT3_vecT1, rdot_vecT2_vecT3, rdot_vecT3_vecT2,
    Complex.ofReal_one, Complex.ofReal_zero, mul_one, mul_zero, zero_smul, add_zero, zero_add]
  rw [exp_unit, exp_unit, exp_unit, one_smul, one_smul, one_smul]
  rw [← T1icm_outer, ← T2icm_outer, ← T3icm_outer]
  exact Ticm_sum ψ alpha

/-- External collaborators consumed by the non-absorptive classes: the
Delta provider (module `deltas`, giving `Delta_pl_kpc`, `Delta_QED_kpc`,
`Delta_ag_kpc`, `Delta_a_kpc`) and the galactic-magnetic-field model
composed with the heliocentric projection (`gmf.GMF`, `GC2HCproj`); the
latter is summarised by the map `s ↦ (Bt, Bu)` of transverse field
components at distance `s` along the line of sight. -/
structure GMFExt where
  Bproj : ℝ → ℝ × ℝ
  delta_pl : ℝ → ℝ → ℝ
  delta_QED : ℝ → ℝ → ℝ
  delta_ag : ℝ → ℝ → ℝ
  delta_a : ℝ → ℝ → ℝ

/-- Instance state of `PhotALPs_ICM` that `SetDomainN` reads: energy,
coupling, ALP mass, electron density, field strength, field angle and
coherence length. -/
structure ICMParams where
  E : ℝ
  g : ℝ
  m : ℝ
  ne : ℝ
  B : ℝ
  Psin : ℝ
  Lcoh : ℝ

/-- Mixing-matrix entry `Dperp` from `PhotALPs_ICM.__setDeltas`
(src/conversion.py line 317). -/
noncomputable def Dperp (ext : GMFExt) (p : ICMParams) : ℝ :=
  ext.delta_pl p.ne p.E + 2 * ext.delta_QED p.B p.E

/-- Mixing-matrix entry `Dpar` from `PhotALPs_ICM.__setDeltas`
(src/conversion.py line 318). -/
noncomputable def Dpar (ext : GMFExt) (p : ICMParams) : ℝ :=
  ext.delta_pl p.ne p.E + 3.5 * ext.delta_QED p.B p.E

/-- Coupling entry `Dag` from `PhotALPs_ICM.__setDeltas`
(src/conversion.py line 319). -/
noncomputable def Dag (ext : GMFExt) (p : ICMParams) : ℝ :=
  ext.delta_ag p.g p.B

/-- ALP-mass entry `Da` from `PhotALPs_ICM.__setDeltas`
(src/conversion.py line 320). -/
noncomputable def Da (ext : GMFExt) (p : ICMParams) : ℝ :=
  ext.delta_a p.m p.E

/-- Mixing angle `alph` from `PhotALPs_ICM.__setDeltas`
(src/conversion.py line 321). -/
noncomputable def alphICM (ext : GMFExt) (p : ICMParams) : ℝ :=
  0.5 * Real.arctan (2 * Dag ext p / (Dpar ext p - Da ext p))

/-- Oscillation wave number `Dosc` from `PhotALPs_ICM.__setDeltas`
(src/conversion.py line 322). -/
noncomputable def Dosc (ext : GMFExt) (p : ICMParams) : ℝ :=
  Real.sqrt ((Dpar ext p - Da ext p) ^ 2 + 4 * Dag ext p ^ 2)

/-- First eigenvalue from `PhotALPs_ICM.__setEW` (src/conversion.py line 330). -/
noncomputable def EW1icm (ext : GMFExt) (p : ICMParams) : ℝ := Dperp ext p

/-- Second eigenvalue from `PhotALPs_ICM.__setEW` (src/conversion.py line 331). -/
noncomputable def EW2icm (ext : GMFExt) (p : ICMParams) : ℝ :=
  0.5 * (Dpar ext p + Da ext p - Dosc ext p)

/-- Third eigenvalue from `PhotALPs_ICM.__setEW` (src/conversion.py line 332). -/
noncomputable def EW3icm (ext : GMFExt) (p : ICMParams) : ℝ :=
  0.5 * (Dpar ext p + Da ext p + Dosc ext p)

/-- `PhotALPs_ICM.SetDomainN` (src/conversion.py lines 388-396): refresh
the eigenvalues and basis matrices from the current instance state and
return the per-domain transfer matrix. -/
noncomputable def SetDomainN_ICM (ext : GMFExt) (p : ICMParams) : Mat3 :=
  UnICM p.Psin (alphICM ext p) (EW1icm ext p) (EW2icm ext p) (EW3icm ext p) p.Lcoh

/-- Field angle computed inside the `Pag_TM` loop (src/conversion.py lines
730-736): `Psin = arccos(Bt/|B|)`, reflected when `Bu < 0`, with a zero
fallback when the transverse field vanishes. -/
noncomputable def PsinOf (Bt Bu : ℝ) : ℝ :=
  if Real.sqrt (Bt ^ 2 + Bu ^ 2) ≠ 0 then
    (if Bu < 0 then 2 * Real.pi - Real.arccos (Bt / Real.sqrt (Bt ^ 2 + Bu ^ 2))
     else Real.arccos (Bt / Real.sqrt (Bt ^ 2 + Bu ^ 2)))
  else 0

/-- Call-level state of `PhotALPs_GMF` used by `Pag_TM`, `integrate_los`
and `Pag`: energy and ALP parameters, the maximal line-of-sight distance
`smax` produced by `set_coordinates` (an external coordinate transform),
and the cell size `Lcoh`. -/
structure GMFCfg where
  E : ℝ
  g : ℝ
  m : ℝ
  ne : ℝ
  smax : ℝ
  Lcoh : ℝ

/-- One iteration of the `Pag_TM` loop body without the matrix update
(src/conversion.py lines 725-745): project the external field at `s`,
derive `B` and `Psin`, and call the inherited `SetDomainN`. -/
noncomputable def stepU (ext : GMFExt) (cfg : GMFCfg) (s : ℝ) : Mat3 :=
  let Bt := (ext.Bproj s).1
  let Bu := (ext.Bproj s).2
  SetDomainN_ICM ext
    { E := cfg.E, g := cfg.g, m := cfg.m, ne := cfg.ne,
      B := Real.sqrt (Bt ^ 2 + Bu ^ 2), Psin := PsinOf Bt Bu, Lcoh := cfg.Lcoh }

/-- Python `int()` truncation toward zero. -/
noncomputable def truncInt (x : ℝ) : ℤ := if 0 ≤ x then ⌊x⌋ else ⌈x⌉

/-- `np.linspace(start, 0., num, endpoint=False)` as used at
src/conversion.py line 713: `num` evenly spaced samples starting at
`start`, stopping before 0. -/
noncomputable def linspaceEx (start : ℝ) (num : ℕ) : List ℝ :=
  (List.range num).map fun k => start + (k : ℝ) * ((0 - start) / (num : ℝ))

/-- The sample grid of `Pag_TM` (src/conversion.py line 713). -/
noncomputable def saTM (smax Lcoh : ℝ) : List ℝ :=
  linspaceEx smax (truncInt (smax / Lcoh)).toNat

/-- The cumulative transfer matrix of `Pag_TM` (src/conversion.py lines
715 and 745): initialised to the identity and updated by
`U = np.dot(U, SetDomainN())` for each sample. -/
noncomputable def Pag_TM_U (ext : GMFExt) (cfg : GMFCfg) (sa : List ℝ) : Mat3 :=
  sa.foldl (fun U s => U * stepU ext cfg s) 1

/-- Projector on the first transverse polarization, built at
src/conversion.py lines 717-718. -/
noncomputable def polT : Mat3 := !![1, 0, 0; 0, 0, 0; 0, 0, 0]

/-- Projector on the second transverse polarization, built at
src/conversion.py lines 719-720. -/
noncomputable def polU : Mat3 := !![0, 0, 0; 0, 1, 0; 0, 0, 0]

/-- Projector on the ALP component, built at src/conversion.py lines
722-723. -/
noncomputable def polA : Mat3 := !![0, 0, 0; 0, 0, 0; 0, 0, 1]

/-- `PhotALPs_GMF.Pag_TM` with `pol_final = None` (src/conversion.py lines
689-754): propagate the initial polarization matrix `pol` through the
sampled domain chain and read off the three channel probabilities
`P_i = Tr(pol_i · U · pol · U†)`. -/
noncomputable def Pag_TM (ext : GMFExt) (cfg : GMFCfg) (pol : Mat3) : ℂ × ℂ × ℂ :=
  let U := Pag_TM_U ext cfg (saTM cfg.smax cfg.Lcoh)
  ((polT * (U * (pol * Uᴴ))).trace,
   (polU * (U * (pol * Uᴴ))).trace,
   (polA * (U * (pol * Uᴴ))).trace)

lemma stepU_unitary (ext : GMFExt) (cfg : GMFCfg) (s : ℝ) :
    stepU ext cfg s * (stepU ext cfg s)ᴴ = 1 := by
  rw [stepU]
  exact UnICM_mul_conjTranspose _ _ _ _ _ _

lemma Pag_TM_U_foldl_unitary (ext : GMFExt) (cfg : GMFCfg) (sa : List ℝ) :
    ∀ U0 : Mat3, U0 * U0ᴴ = 1 →
      (sa.foldl (fun U s => U * stepU ext cfg s) U0) *
        (sa.foldl (fun U s => U * stepU ext cfg s) U0)ᴴ = 1 := by
  induction sa with
  | nil => intro U0 h; simpa using h
  | cons s sa ih =>
      intro U0 h
      simp only [List.foldl_cons]
      refine ih (U0 * stepU ext cfg s) ?_
      rw [Matrix.conjTranspose_mul]
      calc U0 * stepU ext cfg s * ((stepU ext cfg s)ᴴ * U0ᴴ)
          = U0 * (stepU ext cfg s * (stepU ext cfg s)ᴴ) * U0ᴴ := by
            rw [Matrix.mul_assoc, Matrix.mul_assoc, Matrix.mul_assoc]
        _ = 1 := by rw [stepU_unitary, Matrix.mul_one, h]

lemma Pag_TM_U_unitary (ext : GMFExt) (cfg : GMFCfg) (sa : List ℝ) :
    Pag_TM_U ext cfg sa * (Pag_TM_U ext cfg sa)ᴴ = 1 := by
  rw [Pag_TM_U]
  refine Pag_TM_U_foldl_unitary ext cfg sa 1 ?_
  simp

lemma pol_sum : polT + polU + polA = 1 := by
  ext i j
  fin_cases i <;> fin_cases j <;>
    simp [polT, polU, polA, Matrix.one_apply, Matrix.vecHead, Matrix.vecTail]

lemma Pag_TM_sum_trace (ext : GMFExt) (cfg : GMFCfg) (pol : Mat3) :
    (Pag_TM ext cfg pol).1 + (Pag_TM ext cfg pol).2.1 + (Pag_TM ext cfg pol).2.2 =
      pol.trace := by
  have hU := Pag_TM_U_unitary ext cfg (saTM cfg.smax cfg.Lcoh)
  set U := Pag_TM_U ext cfg (saTM cfg.smax cfg.Lcoh) with hUdef
  have hU2 : Uᴴ * U = 1 := Matrix.mul_eq_one_comm.mp hU
  simp only [Pag_TM, ← hUdef]
  rw [← Matrix.trace_add, ← Matrix.trace_add, ← Matrix.add_mul, ← Matrix.add_mul, pol_sum,
    Matrix.one_mul]
  calc (U * (pol * Uᴴ)).trace
      = ((pol * Uᴴ) * U).trace := Matrix.trace_mul_comm _ _
    _ = (pol * (Uᴴ * U)).trace := by rw [Matrix.mul_assoc]
    _ = pol.trace := by rw [hU2, Matrix.mul_one]

/-- Per-domain record produced by `PhotALPs.SetDomainN` (src/conversion.py
lines 238-280): domain length, mean free path (with the zero-`difftau`
fallback), coupling `dn`, complex discriminant `Dn`, the three eigenvalues
and the assembled transfer matrix `Un` of `SetUn`. -/
structure DomainIGM where
  Ln : ℝ
  mfn : ℝ
  dn : ℝ
  Dn : ℂ
  EW1n : ℂ
  EW2n : ℂ
  EW3n : ℂ
  Un : Mat3

/-- `PhotALPs.SetDomainN` (src/conversion.py lines 238-280), with the
external optical-depth model `tau.opt_depth` passed in as the function
`tau : (z, E) ↦ τ`.  The Python truthiness test `if difftau:` is the test
`difftau ≠ 0`, and the `else` branch substitutes `mfn = Ln / 1e-20`
instead of raising. -/
noncomputable def SetDomainN_IGM (tau : ℝ → ℝ → ℝ) (E0 dz xi ψ n : ℝ) : DomainIGM :=
  let difftau : ℝ := tau (n * dz) E0 - tau ((n - 1) * dz) E0
  let Ln : ℝ := 4.29e3 * dz / (1 + 1.45 * (n - 1) * dz)
  let mfn : ℝ := if difftau ≠ 0 then Ln / difftau else Ln / 1e-20
  let dn : ℝ := 0.11 * xi * mfn * (1 + (n - 1) * dz) ^ 2
  let Dn := csqrt (1 - 4 * (dn : ℂ) ^ 2)
  let EW1n : ℂ := (-0.5 : ℂ) / (mfn : ℂ)
  let EW2n : ℂ := (-0.25 : ℂ) / (mfn : ℂ) * (1 + Dn)
  let EW3n : ℂ := (-0.25 : ℂ) / (mfn : ℂ) * (1 - Dn)
  { Ln := Ln, mfn := mfn, dn := dn, Dn := Dn, EW1n := EW1n, EW2n := EW2n, EW3n := EW3n,
    Un := Complex.exp (EW1n * (Ln : ℂ)) • T1igm ψ +
      Complex.exp (EW2n * (Ln : ℂ)) • T2igm ψ dn Dn +
      Complex.exp (EW3n * (Ln : ℂ)) • T3igm ψ dn Dn }

/-- The perturbation-theory validity bound (src/conversion.py line 403). -/
noncomputable def pertubation : ℝ := 0.10

/-- Coupling term `Delta_ag_t` of one `integrate_los` sample
(src/conversion.py line 603): the Delta provider applied to the signed
transverse component `Bt`. -/
noncomputable def losDelta_t (ext : GMFExt) (cfg : GMFCfg) (s : ℝ) : ℝ :=
  ext.delta_ag cfg.g (ext.Bproj s).1

/-- Coupling term `Delta_ag_u` of one `integrate_los` sample
(src/conversion.py line 604). -/
noncomputable def losDelta_u (ext : GMFExt) (cfg : GMFCfg) (s : ℝ) : ℝ :=
  ext.delta_ag cfg.g (ext.Bproj s).2

/-- The number of `warnings.warn` calls issued by the `integrate_los` loop
over a given sample list (src/conversion.py lines 607-610): one call per
sample for which `Delta_ag_t > pertubation`, and one per sample for which
`Delta_ag_u > pertubation`. -/
noncomputable def losWarnCount (ext : GMFExt) (cfg : GMFCfg) (sa : List ℝ) : ℕ :=
  sa.foldl
    (fun acc s =>
      acc + (if pertubation < losDelta_t ext cfg s then 1 else 0) +
        (if pertubation < losDelta_u ext cfg s then 1 else 0)) 0

/-- `np.linspace(start, stop, num)` with the default inclusive endpoint,
as used at src/conversion.py line 575. -/
noncomputable def linspaceInc (start stop : ℝ) (num : ℕ) : List ℝ :=
  if num = 1 then [start]
  else (List.range num).map fun k => start + (k : ℝ) * ((stop - start) / ((num : ℝ) - 1))

/-- The sample grid of `integrate_los` (src/conversion.py line 575). -/
noncomputable def saLOS (smax Lcoh : ℝ) : List ℝ :=
  linspaceInc 0 smax (truncInt (smax / Lcoh)).toNat

/-- Warning calls issued by one full `integrate_los` run. -/
noncomputable def integrate_los_warncount (ext : GMFExt) (cfg : GMFCfg) : ℕ :=
  losWarnCount ext cfg (saLOS cfg.smax cfg.Lcoh)

/-- The polarization-weight guard of `PhotALPs_GMF.Pag` (src/conversion.py
lines 670-673): a passed weight replaces the stored one only when it is
strictly positive. -/
noncomputable def pol_update (stored arg : ℝ) : ℝ := if 0 < arg then arg else stored

/-- The value returned by `PhotALPs_GMF.Pag` together with the
polarization weights stored on the instance after the call
(src/conversion.py lines 646-686).  The two squared moduli `It`, `Iu`
produced by `integrate_los` enter only through the final linear
combination `pol_t**2 * It + pol_u**2 * Iu`, so they are parameters
here. -/
noncomputable def Pag_cont (It Iu stored_t stored_u arg_t arg_u : ℝ) : ℝ × ℝ × ℝ :=
  (pol_update stored_t arg_t ^ 2 * It + pol_update stored_u arg_u ^ 2 * Iu,
   pol_update stored_t arg_t, pol_update stored_u arg_u)

lemma csqrt_one : csqrt 1 = 1 := Complex.one_cpow _

lemma csqrt_ofReal_neg (x : ℝ) (hx : x < 0) :
    csqrt ((x : ℝ) : ℂ) = Complex.I * ((Real.sqrt (-x) : ℝ) : ℂ) := by
  have hx0 : ((x : ℝ) : ℂ) ≠ 0 := Complex.ofReal_ne_zero.mpr (ne_of_lt hx)
  have hlog : Complex.log ((x : ℝ) : ℂ) =
      ((Real.log (-x) : ℝ) : ℂ) + ((Real.pi : ℝ) : ℂ) * Complex.I := by
    apply Complex.ext
    · simp [Complex.log_re, Complex.abs_ofReal, abs_of_neg hx]
    · simp [Complex.log_im, Complex.arg_ofReal_of_neg hx]
  have hsplit : (((Real.log (-x) : ℝ) : ℂ) + ((Real.pi : ℝ) : ℂ) * Complex.I) * ((1 : ℂ) / 2) =
      ((Real.log (-x) / 2 : ℝ) : ℂ) + ((Real.pi / 2 : ℝ) : ℂ) * Complex.I := by
    push_cast
    ring
  have hexp2 : Complex.exp (((Real.pi / 2 : ℝ) : ℂ) * Complex.I) = Complex.I := by
    rw [Complex.exp_mul_I, ← Complex.ofReal_cos, ← Complex.ofReal_sin,
      Real.cos_pi_div_two, Real.sin_pi_div_two]
    simp
  have hexp1 : Complex.exp ((((Real.log (-x) / 2 : ℝ)) : ℂ)) =
      ((Real.sqrt (-x) : ℝ) : ℂ) := by
    rw [← Complex.ofReal_exp]
    congr 1
    rw [Real.sqrt_eq_rpow, Real.rpow_def_of_pos (by linarith : (0 : ℝ) < -x)]
    ring_nf
  rw [csqrt, Complex.cpow_def_of_ne_zero hx0, hlog, hsplit, Complex.exp_add, hexp1, hexp2]
  ring

/-- Claim C1: for every propagation of the discrete transfer-matrix
propagator `Pag_TM` (whose per-domain eigenvalues `i*EW1, i*EW2, i*EW3`
are purely imaginary for every domain of the path, the non-absorptive
variant being the one `Pag_TM` invokes), the three channel probabilities
`P_t, P_u, P_alp` read off through the `PolarizationBasis` projectors sum
to the trace of the input density matrix.  In the real-arithmetic model
the identity is exact, hence it holds within any positive relative
tolerance such as 1e-9. -/
theorem claim_C1_probability_conservation (ext : GMFExt) (cfg : GMFCfg) (pol : Mat3) :
    (Pag_TM ext cfg pol).1 + (Pag_TM ext cfg pol).2.1 + (Pag_TM ext cfg pol).2.2 =
      pol.trace :=
  Pag_TM_sum_trace ext cfg pol

/-- Claim C2: for every domain of the non-absorptive ICM/GMF variant
(whose three eigenvalues `i*EW1, i*EW2, i*EW3` are purely imaginary since
`EW1, EW2, EW3` are real, and `U_n = exp(i*EW1*L)*T1 + exp(i*EW2*L)*T2 +
exp(i*EW3*L)*T3`), the transfer matrix produced by `SetDomainN` is
unitary: `U_n * U_n† = 1` exactly, so every entry of `U_n * U_n† - 1` has
absolute value below 1e-9. -/
theorem claim_C2_domain_unitarity (ext : GMFExt) (p : ICMParams) :
    SetDomainN_ICM ext p * (SetDomainN_ICM ext p)ᴴ = 1 ∧
      ∀ i j, Complex.abs ((SetDomainN_ICM ext p * (SetDomainN_ICM ext p)ᴴ - 1) i j) < 1e-9 := by
  have h : SetDomainN_ICM ext p * (SetDomainN_ICM ext p)ᴴ = 1 := by
    rw [SetDomainN_ICM]
    exact UnICM_mul_conjTranspose _ _ _ _ _ _
  refine ⟨h, fun i j => ?_⟩
  rw [h]
  simp only [sub_self, Matrix.zero_apply, map_zero]
  norm_num

/-- Claim C4: for every mixing angle and every pair `(d, D)` with `D`
nonzero, the three basis matrices of a domain sum to the 3x3 identity, in
the absorption-inclusive variant (`SetT1n`/`SetT2n`/`SetT3n`) as well as
in the non-absorptive variant (`__setT1n`/`__setT2n`/`__setT3n`, built
from the angle `alpha`). -/
theorem claim_C4_basis_sum_identity :
    (∀ (ψ dn : ℝ) (Dn : ℂ), Dn ≠ 0 → T1igm ψ + T2igm ψ dn Dn + T3igm ψ dn Dn = 1) ∧
      ∀ ψ alpha : ℝ, T1icm ψ + T2icm ψ alpha + T3icm ψ alpha = 1 := by
  refine ⟨fun ψ dn Dn hD => ?_, Ticm_sum⟩
  have hs2 : Complex.sin (ψ : ℂ) ^ 2 = 1 - Complex.cos (ψ : ℂ) ^ 2 := by
    linear_combination Complex.sin_sq_add_cos_sq (ψ : ℂ)
  ext i j
  fin_cases i <;> fin_cases j <;>
    simp [T1igm, T2igm, T3igm, Matrix.one_apply]
  all_goals field_simp
  all_goals try ring
  all_goals rw [hs2]
  all_goals ring

/-- Witness for claim C4 at the concrete inputs `ψ = 0`, `d = 0`,
`D = 1` (and `alpha = 0` for the non-absorptive variant). -/
theorem claim_C4_witness :
    T1igm 0 + T2igm 0 0 1 + T3igm 0 0 1 = 1 ∧ T1icm 0 + T2icm 0 0 + T3icm 0 0 = 1 :=
  ⟨claim_C4_basis_sum_identity.1 0 0 1 one_ne_zero, claim_C4_basis_sum_identity.2 0 0⟩

/-- Claim C5: for every domain `n` of the absorption-inclusive variant,
the eigenvalues computed by `SetDomainN` equal the closed forms
`EW1 = -1/(2*mfn)`, `EW2 = -1/(4*mfn)*(1+D)`, `EW3 = -1/(4*mfn)*(1-D)`
with `D = sqrt(1 - 4*d^2)` taken in ℂ, and the domain transfer matrix
equals `U_n = exp(EW1*L)*T1 + exp(EW2*L)*T2 + exp(EW3*L)*T3` with `L` the
domain length. -/
theorem claim_C5_eigenvalue_closed_forms (tau : ℝ → ℝ → ℝ) (E0 dz xi ψ n : ℝ) :
    (SetDomainN_IGM tau E0 dz xi ψ n).EW1n =
        -1 / (2 * ((SetDomainN_IGM tau E0 dz xi ψ n).mfn : ℂ)) ∧
      (SetDomainN_IGM tau E0 dz xi ψ n).EW2n =
        -1 / (4 * ((SetDomainN_IGM tau E0 dz xi ψ n).mfn : ℂ)) *
          (1 + (SetDomainN_IGM tau E0 dz xi ψ n).Dn) ∧
      (SetDomainN_IGM tau E0 dz xi ψ n).EW3n =
        -1 / (4 * ((SetDomainN_IGM tau E0 dz xi ψ n).mfn : ℂ)) *
          (1 - (SetDomainN_IGM tau E0 dz xi ψ n).Dn) ∧
      (SetDomainN_IGM tau E0 dz xi ψ n).Dn =
        csqrt (1 - 4 * ((SetDomainN_IGM tau E0 dz xi ψ n).dn : ℂ) ^ 2) ∧
      (SetDomainN_IGM tau E0 dz xi ψ n).Un =
        Complex.exp ((SetDomainN_IGM tau E0 dz xi ψ n).EW1n *
            ((SetDomainN_IGM tau E0 dz xi ψ n).Ln : ℂ)) • T1igm ψ +
          Complex.exp ((SetDomainN_IGM tau E0 dz xi ψ n).EW2n *
            ((SetDomainN_IGM tau E0 dz xi ψ n).Ln : ℂ)) •
            T2igm ψ (SetDomainN_IGM tau E0 dz xi ψ n).dn (SetDomainN_IGM tau E0 dz xi ψ n).Dn +
          Complex.exp ((SetDomainN_IGM tau E0 dz xi ψ n).EW3n *
            ((SetDomainN_IGM tau E0 dz xi ψ n).Ln : ℂ)) •
            T3igm ψ (SetDomainN_IGM tau E0 dz xi ψ n).dn (SetDomainN_IGM tau E0 dz xi ψ n).Dn := by
  refine ⟨?_, ?_, ?_, rfl, rfl⟩
  · show (-0.5 : ℂ) / ((SetDomainN_IGM tau E0 dz xi ψ n).mfn : ℂ) = _
    ring
  · show (-0.25 : ℂ) / ((SetDomainN_IGM tau E0 dz xi ψ n).mfn : ℂ) *
      (1 + (SetDomainN_IGM tau E0 dz xi ψ n).Dn) = _
    ring
  · show (-0.25 : ℂ) / ((SetDomainN_IGM tau E0 dz xi ψ n).mfn : ℂ) *
      (1 - (SetDomainN_IGM tau E0 dz xi ψ n).Dn) = _
    ring

/-- Claim C6: for every domain where the optical-depth difference across
the domain is exactly zero, `SetDomainN` substitutes the
effectively-infinite fallback mean free path `Ln / 1e-20` instead of
dividing by zero, and the rest of the computation (`dn`, eigenvalues)
proceeds normally with that fallback. -/
theorem claim_C6_difftau_zero_fallback (tau : ℝ → ℝ → ℝ) (E0 dz xi ψ n : ℝ)
    (h : tau (n * dz) E0 - tau ((n - 1) * dz) E0 = 0) :
    (SetDomainN_IGM tau E0 dz xi ψ n).mfn = (SetDomainN_IGM tau E0 dz xi ψ n).Ln / 1e-20 ∧
      (SetDomainN_IGM tau E0 dz xi ψ n).dn =
        0.11 * xi * ((SetDomainN_IGM tau E0 dz xi ψ n).Ln / 1e-20) * (1 + (n - 1) * dz) ^ 2 ∧
      (SetDomainN_IGM tau E0 dz xi ψ n).EW1n =
        (-0.5 : ℂ) / (((SetDomainN_IGM tau E0 dz xi ψ n).Ln / 1e-20 : ℝ) : ℂ) := by
  have hmfn : (SetDomainN_IGM tau E0 dz xi ψ n).mfn =
      (SetDomainN_IGM tau E0 dz xi ψ n).Ln / 1e-20 := by
    show (if (tau (n * dz) E0 - tau ((n - 1) * dz) E0) ≠ 0 then _ else _) = _
    rw [if_neg (by simp [h])]
    rfl
  refine ⟨hmfn, ?_, ?_⟩
  · show 0.11 * xi * (SetDomainN_IGM tau E0 dz xi ψ n).mfn * (1 + (n - 1) * dz) ^ 2 = _
    rw [hmfn]
  · show (-0.5 : ℂ) / ((SetDomainN_IGM tau E0 dz xi ψ n).mfn : ℂ) = _
    rw [hmfn]

/-- Witness for claim C6 with the constant-zero optical-depth table at
the concrete inputs `E0 = dz = xi = 1`, `ψ = 0`, `n = 1`. -/
theorem claim_C6_witness :
    (SetDomainN_IGM (fun _ _ => 0) 1 1 1 0 1).mfn =
        (SetDomainN_IGM (fun _ _ => 0) 1 1 1 0 1).Ln / 1e-20 ∧
      (SetDomainN_IGM (fun _ _ => 0) 1 1 1 0 1).dn =
        0.11 * 1 * ((SetDomainN_IGM (fun _ _ => 0) 1 1 1 0 1).Ln / 1e-20) *
          (1 + (1 - 1) * 1) ^ 2 ∧
      (SetDomainN_IGM (fun _ _ => 0) 1 1 1 0 1).EW1n =
        (-0.5 : ℂ) / (((SetDomainN_IGM (fun _ _ => 0) 1 1 1 0 1).Ln / 1e-20 : ℝ) : ℂ) :=
  claim_C6_difftau_zero_fallback (fun _ _ => 0) 1 1 1 0 1 (by norm_num)

/-- Claim C7: the discriminant `D = sqrt(1 - 4*d^2)` is computed in
complex arithmetic for every coupling `d` (the model function `csqrt` is
total, so `SetDomainN` raises no error for `d > 0.5`; there the value is
the purely imaginary branch `i*sqrt(4*d^2 - 1)`), and `D` equals exactly
`1` when `d = 0`. -/
theorem claim_C7_complex_discriminant :
    (∀ d : ℝ, 1 / 2 < d →
        csqrt (1 - 4 * ((d : ℝ) : ℂ) ^ 2) =
          Complex.I * ((Real.sqrt (4 * d ^ 2 - 1) : ℝ) : ℂ)) ∧
      csqrt (1 - 4 * (((0 : ℝ)) : ℂ) ^ 2) = 1 := by
  constructor
  · intro d hd
    have hneg : (1 - 4 * d ^ 2 : ℝ) < 0 := by nlinarith
    have hcast : (1 - 4 * ((d : ℝ) : ℂ) ^ 2) = (((1 - 4 * d ^ 2 : ℝ)) : ℂ) := by
      push_cast
      ring
    rw [hcast, csqrt_ofReal_neg _ hneg]
    rw [show -(1 - 4 * d ^ 2) = 4 * d ^ 2 - 1 from by ring]
  · rw [show (1 - 4 * (((0 : ℝ)) : ℂ) ^ 2) = 1 from by norm_num, csqrt_one]

/-- Witness for claim C7 at the concrete coupling `d = 1 > 0.5`. -/
theorem claim_C7_witness :
    csqrt (1 - 4 * (((1 : ℝ)) : ℂ) ^ 2) =
      Complex.I * ((Real.sqrt (4 * (1 : ℝ) ^ 2 - 1) : ℝ) : ℂ) :=
  claim_C7_complex_discriminant.1 1 (by norm_num)

/-- Claim C10: when `Pag` is called with a non-positive `pol_t` or
`pol_u` argument, the corresponding stored polarization weight is left
unchanged by the guard, and (when both arguments are non-positive) the
returned probability is computed from the previously stored weights. -/
theorem claim_C10_pol_guard (It Iu stored_t stored_u arg_t arg_u : ℝ) :
    (arg_t ≤ 0 → pol_update stored_t arg_t = stored_t) ∧
      (arg_u ≤ 0 → pol_update stored_u arg_u = stored_u) ∧
      (arg_t ≤ 0 → arg_u ≤ 0 →
        Pag_cont It Iu stored_t stored_u arg_t arg_u =
          (stored_t ^ 2 * It + stored_u ^ 2 * Iu, stored_t, stored_u)) := by
  refine ⟨fun ht => ?_, fun hu => ?_, fun ht hu => ?_⟩
  · rw [pol_update, if_neg (not_lt.mpr ht)]
  · rw [pol_update, if_neg (not_lt.mpr hu)]
  · rw [Pag_cont, pol_update, pol_update, if_neg (not_lt.mpr ht), if_neg (not_lt.mpr hu)]

/-- Witness for claim C10 at the concrete call `pol_t = 0`, `pol_u = 0`
with stored weights `(2, 3)` and integrals `It = 5`, `Iu = 7`. -/
theorem claim_C10_witness :
    Pag_cont 5 7 2 3 0 0 = ((2 : ℝ) ^ 2 * 5 + 3 ^ 2 * 7, 2, 3) :=
  (claim_C10_pol_guard 5 7 2 3 0 0).2.2 le_rfl le_rfl

lemma losWarnCount_foldl_countP (ext : GMFExt) (cfg : GMFCfg) :
    ∀ (sa : List ℝ) (acc : ℕ),
      sa.foldl
          (fun acc s =>
            acc + (if pertubation < losDelta_t ext cfg s then 1 else 0) +
              (if pertubation < losDelta_u ext cfg s then 1 else 0)) acc =
        acc + sa.countP (fun s => decide (pertubation < losDelta_t ext cfg s)) +
          sa.countP (fun s => decide (pertubation < losDelta_u ext cfg s)) := by
  intro sa
  induction sa with
  | nil => intro acc; simp
  | cons s l ih =>
      intro acc
      simp only [List.foldl_cons, List.countP_cons]
      rw [ih]
      by_cases h1 : pertubation < losDelta_t ext cfg s <;>
        by_cases h2 : pertubation < losDelta_u ext cfg s <;>
          simp [h1, h2] <;> omega

/-- Concrete external collaborators for an `integrate_los` run whose
coupling term is fixed at `0.20` along the whole path: transverse field
`(1, 0)` everywhere, `Delta_ag = B / 5`, all other Deltas zero. -/
noncomputable def extWarn : GMFExt :=
  { Bproj := fun _ => (1, 0), delta_pl := fun _ _ => 0, delta_QED := fun _ _ => 0,
    delta_ag := fun _ B => B / 5, delta_a := fun _ _ => 0 }

/-- Concrete call configuration giving the two-sample grid `[0, 2]`. -/
noncomputable def cfgWarn : GMFCfg :=
  { E := 1, g := 1, m := 1, ne := 1, smax := 2, Lcoh := 1 }

/-- Counterexample to claim C8: in a run whose coupling term `Delta_ag_t`
is fixed at `0.20` (above the `0.10` bound) over one contiguous region of
two samples, the `integrate_los` loop issues two `warnings.warn` calls --
one per violating sample -- not exactly one for the region. -/
theorem claim_C8_counterexample :
    integrate_los_warncount extWarn cfgWarn = 2 ∧ (2 : ℕ) ≠ 1 := by
  refine ⟨?_, by omega⟩
  have htr : truncInt ((2 : ℝ) / 1) = 2 := by
    norm_num [truncInt]
  have htn : (truncInt ((2 : ℝ) / 1)).toNat = 2 := by rw [htr]; rfl
  have hsa : saLOS cfgWarn.smax cfgWarn.Lcoh = [0, 2] := by
    show linspaceInc 0 (2 : ℝ) (truncInt ((2 : ℝ) / 1)).toNat = [0, 2]
    rw [htn]
    norm_num [linspaceInc, List.range_succ]
  rw [integrate_los_warncount, hsa]
  have ht : ∀ s : ℝ, losDelta_t extWarn cfgWarn s = 1 / 5 := fun s => rfl
  have hu : ∀ s : ℝ, losDelta_u extWarn cfgWarn s = 0 / 5 := fun s => rfl
  simp only [losWarnCount, List.foldl_cons, List.foldl_nil, ht, hu]
  norm_num [pertubation]

/-- Claim C8 as amended: the continuous line-of-sight integrator emits a
non-fatal warning for the coupling term and still returns its result (the
warnings are side events of the loop, counted by `losWarnCount`, and do
not interrupt it); over any run the warning is emitted once per violating
sample for each of the two coupling terms -- not once per contiguous
violating region. -/
theorem claim_C8_amended (ext : GMFExt) (cfg : GMFCfg) (sa : List ℝ) :
    losWarnCount ext cfg sa =
      sa.countP (fun s => decide (pertubation < losDelta_t ext cfg s)) +
        sa.countP (fun s => decide (pertubation < losDelta_u ext cfg s)) := by
  rw [losWarnCount, losWarnCount_foldl_countP]
  omega

/-- Claim C3 as amended: the cumulative transfer matrix of `Pag_TM`
starts at the identity, and each successive domain matrix is
RIGHT-multiplied into the cumulative product, `U_total <- U_total * U_n`
(src/conversion.py line 745, `U = np.dot(U, ...SetDomainN())`); after
processing the domains `s_1, ..., s_n` in path order the accumulator
equals `U_1 * U_2 * ... * U_n`, the first-processed (farthest) domain
standing leftmost. -/
theorem claim_C3_amended :
    (∀ (ext : GMFExt) (cfg : GMFCfg), Pag_TM_U ext cfg [] = 1) ∧
      (∀ (ext : GMFExt) (cfg : GMFCfg) (sa : List ℝ) (s : ℝ),
        Pag_TM_U ext cfg (sa ++ [s]) = Pag_TM_U ext cfg sa * stepU ext cfg s) ∧
      ∀ (ext : GMFExt) (cfg : GMFCfg) (sa : List ℝ),
        Pag_TM_U ext cfg sa = (sa.map (stepU ext cfg)).prod := by
  refine ⟨fun ext cfg => rfl, fun ext cfg sa s => ?_, fun ext cfg sa => ?_⟩
  · rw [Pag_TM_U, Pag_TM_U, List.foldl_append]
    rfl
  · rw [Pag_TM_U, List.prod_eq_foldl, List.foldl_map]

/-- Concrete external collaborators for the ordering counterexample: the
transverse field points along `t` for `s ≥ 4` and along the diagonal of
the `t`-`u` plane for `s < 4`, and the Deltas are chosen so every domain
has `alph = 0` and eigenvalues `(1, 0, 2)`. -/
noncomputable def extOrd : GMFExt :=
  { Bproj := fun s =>
      if 4 ≤ s then (1, 0) else (Real.sqrt 2 / 2, Real.sqrt 2 / 2),
    delta_pl := fun _ _ => -1 / 3, delta_QED := fun _ _ => 2 / 3,
    delta_ag := fun _ _ => 0, delta_a := fun _ _ => 0 }

/-- Concrete call configuration for the ordering counterexample: cell
size `pi` and path length `5*pi/2`, giving the two-sample grid
`[5*pi/2, 5*pi/4]`. -/
noncomputable def cfgOrd : GMFCfg :=
  { E := 1, g := 1, m := 1, ne := 1, smax := 5 / 2 * Real.pi, Lcoh := Real.pi }

lemma saTM_cfgOrd : saTM cfgOrd.smax cfgOrd.Lcoh = [5 / 2 * Real.pi, 5 / 4 * Real.pi] := by
  have hq : cfgOrd.smax / cfgOrd.Lcoh = 5 / 2 := by
    show 5 / 2 * Real.pi / Real.pi = 5 / 2
    rw [mul_div_assoc, div_self Real.pi_ne_zero, mul_one]
  have htr : truncInt ((5 : ℝ) / 2) = 2 := by
    norm_num [truncInt]
  rw [saTM, hq, htr]
  show linspaceEx cfgOrd.smax 2 = _
  rw [linspaceEx]
  norm_num [List.range_succ]
  constructor
  · rfl
  · show 5 / 2 * Real.pi + -(5 / 2 * Real.pi) / 2 = 5 / 4 * Real.pi
    ring

lemma PsinOf_one_zero : PsinOf 1 0 = 0 := by
  have h1 : Real.sqrt ((1 : ℝ) ^ 2 + 0 ^ 2) = 1 := by norm_num
  rw [PsinOf, h1]
  norm_num [Real.arccos_one]

lemma PsinOf_diag :
    PsinOf (Real.sqrt 2 / 2) (Real.sqrt 2 / 2) = Real.pi / 4 := by
  have h2 : (Real.sqrt 2) ^ 2 = 2 := Real.sq_sqrt (by norm_num)
  have hsq : ((Real.sqrt 2 / 2 : ℝ)) ^ 2 + (Real.sqrt 2 / 2) ^ 2 = 1 := by
    nlinarith [h2]
  have h1 : Real.sqrt ((Real.sqrt 2 / 2 : ℝ) ^ 2 + (Real.sqrt 2 / 2) ^ 2) = 1 := by
    rw [hsq, Real.sqrt_one]
  have hpos : (0 : ℝ) < Real.sqrt 2 / 2 := by positivity
  rw [PsinOf, h1, if_pos (by norm_num), if_neg (by linarith), div_one,
    show Real.sqrt 2 / 2 = Real.cos (Real.pi / 4) from (Real.cos_pi_div_four).symm]
  exact Real.arccos_cos (by positivity) (by linarith [Real.pi_pos])

lemma extOrd_alph (p : ICMParams) : alphICM extOrd p = 0 := by
  simp [alphICM, Dag, Dpar, Da, extOrd, Real.arctan_zero]

lemma extOrd_Dosc (p : ICMParams) : Dosc extOrd p = 2 := by
  rw [Dosc]
  rw [show (Dpar extOrd p - Da extOrd p) ^ 2 + 4 * Dag extOrd p ^ 2 = 2 ^ 2 by
    simp [Dpar, Da, Dag, extOrd]; norm_num]
  exact Real.sqrt_sq (by norm_num)

lemma extOrd_EW1 (p : ICMParams) : EW1icm extOrd p = 1 := by
  simp [EW1icm, Dperp, extOrd]
  norm_num

lemma extOrd_EW2 (p : ICMParams) : EW2icm extOrd p = 0 := by
  rw [EW2icm, extOrd_Dosc]
  simp [Dpar, Da, extOrd]
  norm_num

lemma extOrd_EW3 (p : ICMParams) : EW3icm extOrd p = 2 := by
  rw [EW3icm, extOrd_Dosc]
  simp [Dpar, Da, extOrd]
  norm_num

lemma exp_I_zero_L (L : ℝ) :
    Complex.exp (Complex.I * ((0 : ℝ) : ℂ) * (L : ℂ)) = 1 := by
  simp

lemma exp_I_one_pi :
    Complex.exp (Complex.I * ((1 : ℝ) : ℂ) * ((Real.pi : ℝ) : ℂ)) = -1 := by
  rw [show Complex.I * ((1 : ℝ) : ℂ) * ((Real.pi : ℝ) : ℂ) =
    ((Real.pi : ℝ) : ℂ) * Complex.I from by push_cast; ring]
  exact Complex.exp_pi_mul_I

lemma exp_I_two_pi :
    Complex.exp (Complex.I * ((2 : ℝ) : ℂ) * ((Real.pi : ℝ) : ℂ)) = 1 := by
  rw [show Complex.I * ((2 : ℝ) : ℂ) * ((Real.pi : ℝ) : ℂ) =
    2 * ((Real.pi : ℝ) : ℂ) * Complex.I from by push_cast; ring]
  exact Complex.exp_two_pi_mul_I

lemma UnICM_A : UnICM 0 0 1 0 2 Real.pi = !![-1, 0, 0; 0, 1, 0; 0, 0, 1] := by
  rw [UnICM, exp_I_one_pi, exp_I_zero_L, exp_I_two_pi]
  ext i j
  fin_cases i <;> fin_cases j <;>
    simp [T1icm, T2icm, T3icm, Matrix.vecHead, Matrix.vecTail]

lemma UnICM_B : UnICM (Real.pi / 4) 0 1 0 2 Real.pi = !![0, 1, 0; 1, 0, 0; 0, 0, 1] := by
  have h2 : ((Real.sqrt 2 : ℝ) : ℂ) ^ 2 = 2 := by
    rw [← Complex.ofReal_pow, Real.sq_sqrt (by norm_num : (0 : ℝ) ≤ 2)]
    norm_num
  rw [UnICM, exp_I_one_pi, exp_I_zero_L, exp_I_two_pi]
  ext i j
  fin_cases i <;> fin_cases j <;>
    simp [T1icm, T2icm, T3icm, Matrix.vecHead, Matrix.vecTail]
  all_goals try ring
  all_goals linear_combination h2 / 2

lemma stepA_eval :
    stepU extOrd cfgOrd (5 / 2 * Real.pi) = !![-1, 0, 0; 0, 1, 0; 0, 0, 1] := by
  have hB : extOrd.Bproj (5 / 2 * Real.pi) = (1, 0) := by
    show (if (4 : ℝ) ≤ 5 / 2 * Real.pi then ((1 : ℝ), (0 : ℝ)) else _) = _
    rw [if_pos (by nlinarith [Real.pi_gt_three])]
  rw [stepU, SetDomainN_ICM, extOrd_alph, extOrd_EW1, extOrd_EW2, extOrd_EW3]
  show UnICM (PsinOf (extOrd.Bproj (5 / 2 * Real.pi)).1 (extOrd.Bproj (5 / 2 * Real.pi)).2)
    0 1 0 2 Real.pi = _
  rw [hB]
  show UnICM (PsinOf 1 0) 0 1 0 2 Real.pi = _
  rw [PsinOf_one_zero]
  exact UnICM_A

lemma stepB_eval :
    stepU extOrd cfgOrd (5 / 4 * Real.pi) = !![0, 1, 0; 1, 0, 0; 0, 0, 1] := by
  have hB : extOrd.Bproj (5 / 4 * Real.pi) = (Real.sqrt 2 / 2, Real.sqrt 2 / 2) := by
    show (if (4 : ℝ) ≤ 5 / 4 * Real.pi then _ else (Real.sqrt 2 / 2, Real.sqrt 2 / 2)) = _
    rw [if_neg (by nlinarith [Real.pi_lt_d2])]
  rw [stepU, SetDomainN_ICM, extOrd_alph, extOrd_EW1, extOrd_EW2, extOrd_EW3]
  show UnICM (PsinOf (extOrd.Bproj (5 / 4 * Real.pi)).1 (extOrd.Bproj (5 / 4 * Real.pi)).2)
    0 1 0 2 Real.pi = _
  rw [hB]
  show UnICM (PsinOf (Real.sqrt 2 / 2) (Real.sqrt 2 / 2)) 0 1 0 2 Real.pi = _
  rw [PsinOf_diag]
  exact UnICM_B

lemma mulAB :
    (!![-1, 0, 0; 0, 1, 0; 0, 0, 1] : Mat3) * !![0, 1, 0; 1, 0, 0; 0, 0, 1] =
      !![0, -1, 0; 1, 0, 0; 0, 0, 1] := by
  ext i j
  fin_cases i <;> fin_cases j <;>
    simp [Matrix.mul_apply, Fin.sum_univ_three, Matrix.vecHead, Matrix.vecTail]

/-- Counterexample to claim C3: on the concrete two-domain path of
`extOrd`/`cfgOrd` the accumulator computed by the `Pag_TM` loop differs
from `U_2 * U_1` (the last-processed domain leftmost), so the update is
not `U_total <- U_n * U_total`; the loop right-multiplies instead
(src/conversion.py line 745). -/
theorem claim_C3_counterexample :
    Pag_TM_U extOrd cfgOrd (saTM cfgOrd.smax cfgOrd.Lcoh) ≠
      stepU extOrd cfgOrd (5 / 4 * Real.pi) * stepU extOrd cfgOrd (5 / 2 * Real.pi) := by
  have hL : Pag_TM_U extOrd cfgOrd (saTM cfgOrd.smax cfgOrd.Lcoh) =
      !![0, -1, 0; 1, 0, 0; 0, 0, 1] := by
    rw [saTM_cfgOrd, Pag_TM_U]
    simp only [List.foldl_cons, List.foldl_nil, Matrix.one_mul]
    rw [stepA_eval, stepB_eval, mulAB]
  have hR : stepU extOrd cfgOrd (5 / 4 * Real.pi) * stepU extOrd cfgOrd (5 / 2 * Real.pi) =
      !![0, 1, 0; -1, 0, 0; 0, 0, 1] := by
    rw [stepA_eval, stepB_eval]
    ext i j
    fin_cases i <;> fin_cases j <;>
      simp [Matrix.mul_apply, Fin.sum_univ_three, Matrix.vecHead, Matrix.vecTail]
  rw [hL, hR]
  intro h
  have h01 : ((-1 : ℂ)) = 1 := by
    have := congrArg (fun M : Mat3 => M 0 1) h
    simpa [Matrix.vecHead, Matrix.vecTail] using this
  norm_num at h01

/-- Concrete external collaborators for the invalid-input run: constant
field `(1, 0)` and Deltas chosen so each domain has `alph = 0` and
eigenvalues `(0, 0, 3)`. -/
noncomputable def extC9 : GMFExt :=
  { Bproj := fun _ => (1, 0), delta_pl := fun _ _ => -4, delta_QED := fun _ _ => 2,
    delta_ag := fun _ _ => 0, delta_a := fun _ _ => 0 }

/-- Concrete call with an invalid (negative) energy and a one-sample
path. -/
noncomputable def cfgC9 : GMFCfg :=
  { E := -1, g := 1, m := 1, ne := 1, smax := 1, Lcoh := 1 }

lemma extC9_alph (p : ICMParams) : alphICM extC9 p = 0 := by
  simp [alphICM, Dag, Dpar, Da, extC9, Real.arctan_zero]

lemma extC9_Dosc (p : ICMParams) : Dosc extC9 p = 3 := by
  rw [Dosc]
  rw [show (Dpar extC9 p - Da extC9 p) ^ 2 + 4 * Dag extC9 p ^ 2 = 3 ^ 2 by
    simp [Dpar, Da, Dag, extC9]; norm_num]
  exact Real.sqrt_sq (by norm_num)

lemma extC9_EW1 (p : ICMParams) : EW1icm extC9 p = 0 := by
  simp [EW1icm, Dperp, extC9]
  norm_num

lemma extC9_EW2 (p : ICMParams) : EW2icm extC9 p = 0 := by
  rw [EW2icm, extC9_Dosc]
  simp [Dpar, Da, extC9]
  norm_num

lemma extC9_EW3 (p : ICMParams) : EW3icm extC9 p = 3 := by
  rw [EW3icm, extC9_Dosc]
  simp [Dpar, Da, extC9]
  norm_num

lemma saTM_cfgC9 : saTM cfgC9.smax cfgC9.Lcoh = [1] := by
  have htr : truncInt ((1 : ℝ) / 1) = 1 := by norm_num [truncInt]
  have htn : (truncInt ((1 : ℝ) / 1)).toNat = 1 := by rw [htr]; rfl
  show linspaceEx (1 : ℝ) (truncInt ((1 : ℝ) / 1)).toNat = [1]
  rw [htn, linspaceEx]
  norm_num [List.range_succ]

lemma UnICM_C9 : UnICM 0 0 0 0 3 1 =
    !![1, 0, 0; 0, Complex.exp (Complex.I * ((3 : ℝ) : ℂ) * ((1 : ℝ) : ℂ)), 0; 0, 0, 1] := by
  rw [UnICM, exp_I_zero_L]
  ext i j
  fin_cases i <;> fin_cases j <;>
    simp [T1icm, T2icm, T3icm, Matrix.vecHead, Matrix.vecTail]

lemma stepC9_eval : stepU extC9 cfgC9 1 =
    !![1, 0, 0; 0, Complex.exp (Complex.I * ((3 : ℝ) : ℂ) * ((1 : ℝ) : ℂ)), 0; 0, 0, 1] := by
  have hB : extC9.Bproj 1 = (1, 0) := rfl
  rw [stepU, SetDomainN_ICM, extC9_alph, extC9_EW1, extC9_EW2, extC9_EW3]
  show UnICM (PsinOf 1 0) 0 0 0 3 1 = _
  rw [PsinOf_one_zero]
  exact UnICM_C9

/-- Counterexample to claim C9: the call `Pag_TM(E = -1, ...)` with a
negative energy is not rejected; no validation exists anywhere in the
operation, the propagation loop runs, and the three channel
probabilities `(1, 0, 0)` are returned.  The embedding is total exactly
because the source raises no error on this path. -/
theorem claim_C9_counterexample :
    cfgC9.E < 0 ∧ Pag_TM extC9 cfgC9 polT = (1, 0, 0) := by
  refine ⟨by norm_num [cfgC9], ?_⟩
  have hU : Pag_TM_U extC9 cfgC9 (saTM cfgC9.smax cfgC9.Lcoh) =
      !![1, 0, 0; 0, Complex.exp (Complex.I * ((3 : ℝ) : ℂ) * ((1 : ℝ) : ℂ)), 0;
         0, 0, 1] := by
    rw [saTM_cfgC9, Pag_TM_U]
    simp only [List.foldl_cons, List.foldl_nil, Matrix.one_mul]
    exact stepC9_eval
  rw [Pag_TM, hU]
  refine Prod.ext ?_ (Prod.ext ?_ ?_)
  all_goals
    simp [polT, polU, polA, Matrix.trace, Matrix.mul_apply, Fin.sum_univ_three,
      Matrix.conjTranspose_apply, Matrix.vecHead, Matrix.vecTail, Matrix.diag,
      Matrix.vecMul, Matrix.dotProduct]

/-- Claim C9 as amended: the public propagation operations perform no
input validation: a call with negative energy is accepted, the full
propagation computation proceeds, and the three channel probabilities --
still summing to the trace of the input polarization matrix -- are
returned instead of any error. -/
theorem claim_C9_amended (ext : GMFExt) (cfg : GMFCfg) (pol : Mat3) (hE : cfg.E < 0) :
    (Pag_TM ext cfg pol).1 + (Pag_TM ext cfg pol).2.1 + (Pag_TM ext cfg pol).2.2 =
      pol.trace :=
  Pag_TM_sum_trace ext cfg pol

/-- Witness for the amended claim C9 at the concrete negative energy
`E = -1`. -/
theorem claim_C9_witness :
    cfgC9.E < 0 ∧
      (Pag_TM extC9 cfgC9 polT).1 + (Pag_TM extC9 cfgC9 polT).2.1 +
        (Pag_TM extC9 cfgC9 polT).2.2 = polT.trace :=
  ⟨by norm_num [cfgC9], claim_C9_amended extC9 cfgC9 polT (by norm_num [cfgC9])⟩
